import Mathlib

/-!
# A shallow embedding of the rs-async-zip core

This file embeds the core data model and operations of the `async_zip` crate
(EOCDR locator, reverse signature search, the CRC-32 hashed reader and the
checked entry reads, central directory parsing, the memory/filesystem facade
entry readers, and the streaming writer) as executable Lean definitions, and
proves the specification claims about them.

Conventions of the embedding:
* Machine integers are `Nat`; wherever the Rust code truncates (`as u32`) the
  embedding applies `% 2 ^ 32` explicitly.
* Byte sources read sequentially are `List Nat`; a random-access seekable
  source is a pair of a total length `L : Nat` and an access function
  `data : Nat -> Nat` (a Rust slice `&buffer[a..b]` becomes the pair of the
  shifted access function and the slice length).
* Asynchronous reads are modelled as the sequence of chunks they deliver.
* Fallible operations return `Except ZipErr`; reachable panics (`unwrap`,
  `assert!`, out-of-range slicing) are modelled by a distinguished result
  constructor rather than being conflated with `Err` returns.
* Loops whose termination is enforced by runtime state are given an explicit
  structural fuel so that the definitions evaluate by kernel reduction; the
  fuel chosen at the top level is an upper bound on the iteration count, and
  theorems about `found` results hold for every fuel.
-/

namespace AsyncZip

/-! ## Error type (`src/error.rs`) -/

/-- The error enum `ZipError` from `src/error.rs` (payloads kept where the
claims need them). -/
inductive ZipErr where
  | UnexpectedHeaderError (actual expected : Nat)
  | UnsupportedCompressionError (code : Nat)
  | UnsupportedAttributeCompatibility (code : Nat)
  | UpstreamReadError
  | FeatureNotSupported
  | CRC32CheckError
  | EntryIndexOutOfBounds
  | MissingCompressedSize
  | TargetZip64Unsupported
  | NumOfEntriesMismatch
  | UnableToLocateEOCDR
  deriving DecidableEq, Repr

/-! ## CRC-32 (model of the `crc32fast::Hasher` used by the crate)

`crc32fast` computes the standard CRC-32/ISO-HDLC checksum: initial state
`0xFFFFFFFF`, reflected polynomial `0xEDB88320`, one table lookup per byte,
final xor with `0xFFFFFFFF`. -/

def crcPoly : Nat := 0xEDB88320

/-- One bit-step of the CRC-32 table generator. -/
def crcStep (c : Nat) : Nat := if c % 2 = 1 then Nat.xor (c / 2) crcPoly else c / 2

/-- The CRC-32 lookup-table entry for byte value `b`. -/
def crcTable (b : Nat) : Nat := crcStep^[8] b

/-- The streaming CRC-32 hasher state (`crc32fast::Hasher`). -/
structure Hasher where
  state : Nat
  deriving DecidableEq, Repr

/-- `Hasher::new()`, which is also `Hasher::default()`. -/
def Hasher.new : Hasher := ⟨0xFFFFFFFF⟩

/-- Feed one byte into the hasher. -/
def Hasher.updateByte (h : Hasher) (b : Nat) : Hasher :=
  ⟨Nat.xor (h.state / 256) (crcTable (Nat.xor h.state b % 256))⟩

/-- `Hasher::update(&bytes)`. -/
def Hasher.update (h : Hasher) (bytes : List Nat) : Hasher :=
  bytes.foldl Hasher.updateByte h

/-- `Hasher::finalize()`. -/
def Hasher.finalize (h : Hasher) : Nat := Nat.xor h.state 0xFFFFFFFF

/-- The CRC-32 of a byte string. -/
def crc32 (bytes : List Nat) : Nat := (Hasher.new.update bytes).finalize

/-! ## HashedReader (`src/read/io/hashed.rs`) -/

/-- `HashedReader`: a wrapping reader which feeds every delivered byte through
the CRC-32 hasher. The wrapped reader itself is modelled by the chunks it
delivers, so only the hasher is state here. -/
structure HashedReader where
  hasher : Hasher
  deriving DecidableEq, Repr

/-- `HashedReader::new(reader)`: a fresh default hasher. -/
def HashedReader.new : HashedReader := ⟨Hasher.new⟩

/-- `HashedReader::swap_and_compute_hash()`: `mem::take` the hasher (replacing
it with a fresh default one) and finalize the taken hasher. Returns the hash
together with the post-state. -/
def HashedReader.swap_and_compute_hash (r : HashedReader) : Nat × HashedReader :=
  (r.hasher.finalize, ⟨Hasher.new⟩)

/-- `HashedReader::poll_read`: the inner reader appends `chunk` to the caller's
buffer `filled`; the hasher is then updated with `&filled[prev_len..]`, the
newly appended region. Returns the new buffer contents and the new state. -/
def HashedReader.poll_read (r : HashedReader) (filled chunk : List Nat) :
    List Nat × HashedReader :=
  let filledNew := filled ++ chunk
  (filledNew, ⟨r.hasher.update (filledNew.drop filled.length)⟩)

/-- A sequence of reads through a `HashedReader`, each delivering one chunk
into an initially empty caller buffer. -/
def HashedReader.runReads (r : HashedReader) : List (List Nat) → HashedReader
  | [] => r
  | c :: rest => HashedReader.runReads (r.poll_read [] c).2 rest

/-! ## Signature search and the EOCDR locator (`src/read/io/locator.rs`) -/

/-- Constants from `spec/consts.rs` as documented by the specification:
the EOCDR fixed length excludes the 4-byte signature. -/
def SIGNATURE_LENGTH : Nat := 4

def EOCDR_LENGTH : Nat := 18

/-- The locator scan buffer size, 2 KiB. -/
def BUFFER_SIZE : Nat := 2048

def EOCDR_UPPER_BOUND : Nat := EOCDR_LENGTH

def EOCDR_LOWER_BOUND : Nat := EOCDR_UPPER_BOUND + SIGNATURE_LENGTH + 65535

/-- The EOCDR signature `0x06054b50` as little-endian bytes
(`EOCDR_SIGNATURE.to_le_bytes()`). -/
def eocdrSignature : List Nat := [0x50, 0x4b, 0x05, 0x06]

/-- The result of `reverse_search_buffer`: `match_index` is the index at which
the match ends in reverse orientation (the match occurs at indexes
`<= match_index`). -/
structure SignatureMatch where
  full_match : Bool
  match_index : Nat
  deriving DecidableEq, Repr

/-- The inner loop of `reverse_search_buffer`: compare the signature bytes in
reverse (`sigRev` is the reversed signature, `si` the running
`signature_index`) against `buf` downward from `index`. Returns `some true`
on a full match, `some false` when the comparison runs off the start of the
buffer (a boundary-straddling match), and `none` on a mismatch. -/
def matchAt (buf : Nat → Nat) (index : Nat) : List Nat → Nat → Option Bool
  | [], _ => some true
  | b :: rest, si =>
    if si ≤ index then
      if buf (index - si) = b then matchAt buf index rest (si + 1) else none
    else
      some false

/-- The outer loop of `reverse_search_buffer`: try indexes
`fuel - 1, fuel - 2, ..., 0`. Called with `fuel = buffer length`, so every
index of the buffer is tried from the right. -/
def rsbGo (buf : Nat → Nat) (sigRev : List Nat) : Nat → Option SignatureMatch
  | 0 => none
  | i + 1 =>
    match matchAt buf i sigRev 0 with
    | some true => some ⟨true, i⟩
    | some false => some ⟨false, i⟩
    | none => rsbGo buf sigRev i

/-- `reverse_search_buffer(buffer, signature)`: naive reverse linear search of
`buffer` for `signature`. -/
def reverse_search_buffer (buffer signature : List Nat) : Option SignatureMatch :=
  rsbGo (fun i => buffer.getD i 0) signature.reverse buffer.length

/-- The result of `eocdr`: a located offset, the `UnableToLocateEOCDR` error,
a panic (`assert!` failure or out-of-range slice index), or fuel exhaustion
(unreachable for the top-level fuel). -/
inductive LocateResult where
  | found (offset : Nat)
  | notFound
  | aborted
  | outOfFuel
  deriving DecidableEq, Repr

/-- One loop of `eocdr` (`src/read/io/locator.rs` lines 55-86), with the byte
source given by `(L, data)` and the current window being the `read` bytes at
`position`. `carry` is the `search : Option<SignatureMatch>` variable holding
a partial match carried from a previously scanned window. -/
def eocdrLoop (L : Nat) (data : Nat → Nat) : Nat → Nat → Option SignatureMatch → LocateResult
  | 0, _, _ => .outOfFuel
  | fuel + 1, position, carry =>
    -- `read = reader.read(&mut buffer)`: a cursor at `position` over `L` bytes
    -- delivers `min(BUFFER_SIZE, L - position)` bytes; `slice = &buffer[..read]`.
    let len := min BUFFER_SIZE (L - position)
    -- Step 1: re-check a carried partial match against the end of this window.
    let carryResult : Option LocateResult :=
      match carry with
      | none => none
      | some matched =>
        if matched.match_index + 1 ≤ len then
          match rsbGo (fun i => data (position + (len - (matched.match_index + 1)) + i))
              ((eocdrSignature.take (matched.match_index + 1)).reverse)
              (matched.match_index + 1) with
          | some m2 =>
            -- `assert!(new_matched.full_match)` then return the offset.
            some (if m2.full_match
              then .found (position + (len - (matched.match_index + 1)))
              else .aborted)
          | none => none
        else
          -- `&slice[slice.len() - (mi + 1)..]` would panic on underflow.
          some .aborted
    match carryResult with
    | some r => r
    | none =>
      -- Step 2: reverse-search the whole window for the signature.
      match rsbGo (fun i => data (position + i)) eocdrSignature.reverse len with
      | some m =>
        if m.full_match then
          .found (position + (m.match_index + 1 - SIGNATURE_LENGTH))
        else
          if position = 0 ∨ position ≤ L - EOCDR_LOWER_BOUND then .notFound
          else eocdrLoop L data fuel (position - BUFFER_SIZE) (some m)
      | none =>
        if position = 0 ∨ position ≤ L - EOCDR_LOWER_BOUND then .notFound
        else eocdrLoop L data fuel (position - BUFFER_SIZE) carry

/-- `eocdr(reader)`: seek to the end to learn `L`, seek to
`L.saturating_sub(EOCDR_LENGTH + BUFFER_SIZE)` and run the buffered reverse
scan. The fuel `L / BUFFER_SIZE + 2` bounds the number of loop iterations
(the position strictly decreases by `BUFFER_SIZE` from at most `L`). -/
def eocdr (L : Nat) (data : Nat → Nat) : LocateResult :=
  eocdrLoop L data (L / BUFFER_SIZE + 2) (L - (EOCDR_LENGTH + BUFFER_SIZE)) none

/-! ## Data model -/

/-- Modelled from the spec: `Compression`, a tagged variant over
{Stored, Deflate, Bz, Lzma, Zstd, Xz} (the source module `spec/compression.rs`
is declared but absent from the tree). -/
inductive Compression where
  | Stored
  | Deflate
  | Bz
  | Lzma
  | Zstd
  | Xz
  deriving DecidableEq, Repr

/-- Modelled from the spec: the 16-bit wire code of each compression variant
(Stored=0, Deflate=8, Bz=12, Lzma=14, Zstd=93, Xz=95). -/
def Compression.to_u16 : Compression → Nat
  | .Stored => 0
  | .Deflate => 8
  | .Bz => 12
  | .Lzma => 14
  | .Zstd => 93
  | .Xz => 95

/-- Modelled from the spec: `Compression::try_from(code)`; conversion from a
wire code fails with `UnsupportedCompression(code)` for other values. -/
def Compression.try_from (code : Nat) : Except ZipErr Compression :=
  if code = 0 then .ok .Stored
  else if code = 8 then .ok .Deflate
  else if code = 12 then .ok .Bz
  else if code = 14 then .ok .Lzma
  else if code = 93 then .ok .Zstd
  else if code = 95 then .ok .Xz
  else .error (.UnsupportedCompressionError code)

/-- Modelled from the spec: `AttributeCompatibility`, a tagged variant over
host systems. Only the `Unix` variant is reachable in the claims (central
directory parsing hard-codes it), so the other hosts are a single
constructor. -/
inductive AttributeCompatibility where
  | Unix
  | OtherHost (code : Nat)
  deriving DecidableEq, Repr

/-- `GeneralPurposeFlag`: bit 0 = `encrypted`, bit 3 = `data_descriptor`. -/
structure GeneralPurposeFlag where
  encrypted : Bool
  data_descriptor : Bool
  deriving DecidableEq, Repr

/-- Modelled from the spec: `ZipEntry`, the immutable descriptor of one
archive member (the source `entry` module is declared in `lib.rs` but absent
from the tree). Strings are UTF-8 byte sequences; the modification date is
the raw `(mod_date, mod_time)` pair of 16-bit DOS fields passed through. -/
structure ZipEntry where
  filename : List Nat
  compression : Compression
  attribute_compatibility : AttributeCompatibility
  crc32 : Nat
  uncompressed_size : Nat
  compressed_size : Nat
  last_modification_date : Nat × Nat
  internal_file_attribute : Nat
  external_file_attribute : Nat
  extra_field : List Nat
  comment : List Nat
  deriving DecidableEq, Repr

/-- Modelled from the spec: `ZipEntryMeta`, the mutable/derivable sibling of
`ZipEntry` (general purpose flags and local-header byte offset). -/
structure ZipEntryMeta where
  general_purpose_flag : GeneralPurposeFlag
  file_offset : Option Nat
  deriving DecidableEq, Repr

/-- `ZipFile` (`src/file/mod.rs`): parallel entry/meta sequences plus the
trailing comment. -/
structure ZipFile where
  entries : List ZipEntry
  metas : List ZipEntryMeta
  comment : List Nat
  deriving DecidableEq, Repr

/-! ## The entry decoder pipeline (`src/read/io/entry.rs`)

The decompressed byte stream an entry reader delivers is modelled by the list
of chunks the wrapped `CompressedReader(Take(OwnedReader(..)))` stack yields;
the `HashedReader` on top is the state the checked reads interact with. -/

/-- The state of a `ZipEntryReader`: the chunks still to be delivered by the
inner stack, and the CRC-32 hashing wrapper. -/
structure ZipEntryReaderM where
  chunks : List (List Nat)
  hashed : HashedReader
  deriving DecidableEq, Repr

/-- `ZipEntryReader::new_with_owned` / `new_with_borrow`: the `HashedReader`
layer starts from a fresh default hasher. -/
def ZipEntryReaderM.new (chunks : List (List Nat)) : ZipEntryReaderM :=
  ⟨chunks, HashedReader.new⟩

/-- `read_to_end(buf)`: drain every remaining chunk through the
`HashedReader` into `buf`, returning the number of bytes read, the final
buffer contents and the final hashing state. -/
def readToEndLoop (hashed : HashedReader) (buf : List Nat) :
    List (List Nat) → Nat × List Nat × HashedReader
  | [] => (0, buf, hashed)
  | c :: rest =>
    let step := hashed.poll_read buf c
    let next := readToEndLoop step.2 step.1 rest
    (c.length + next.1, next.2.1, next.2.2)

/-- `ZipEntryReaderExt::read_to_end_checked(buf, entry)`: drain to EOF, then
compare `compute_hash()` (a `swap_and_compute_hash` on the hashing layer)
with `entry.crc32`; on mismatch fail `CRC32CheckError`. Returns the result,
the final buffer and the final reader state. -/
def ZipEntryReaderM.read_to_end_checked (r : ZipEntryReaderM) (buf : List Nat)
    (entry : ZipEntry) : Except ZipErr Nat × List Nat × ZipEntryReaderM :=
  let res := readToEndLoop r.hashed buf r.chunks
  let swapped := res.2.2.swap_and_compute_hash
  (if swapped.1 = entry.crc32 then .ok res.1 else .error .CRC32CheckError,
    res.2.1, ⟨[], swapped.2⟩)

/-- `ZipEntryReaderExt::read_to_string_checked(buf, entry)`: as
`read_to_end_checked` but over a `String`; a UTF-8 failure of the appended
bytes surfaces the underlying I/O error. UTF-8 validity of a byte sequence
is an external collaborator, abstracted as the predicate `utf8ok`. -/
def ZipEntryReaderM.read_to_string_checked (utf8ok : List Nat → Bool)
    (r : ZipEntryReaderM) (buf : List Nat) (entry : ZipEntry) :
    Except ZipErr Nat × List Nat × ZipEntryReaderM :=
  let res := readToEndLoop r.hashed buf r.chunks
  if utf8ok (res.2.1.drop buf.length) then
    let swapped := res.2.2.swap_and_compute_hash
    (if swapped.1 = entry.crc32 then .ok res.1 else .error .CRC32CheckError,
      res.2.1, ⟨[], swapped.2⟩)
  else
    (.error .UpstreamReadError, buf, ⟨[], res.2.2⟩)

/-! ## Sequential byte reading and central directory parsing
(`src/read/mod.rs`) -/

/-- Modelled from the spec: `read_bytes(reader, n)` (declared under
`read::io` but absent from the tree): read exactly `n` bytes; hitting EOF is
an upstream I/O error. The reader is a byte list consumed left to right. -/
def read_bytes (reader : List Nat) (n : Nat) : Except ZipErr (List Nat × List Nat) :=
  if n ≤ reader.length then .ok (reader.take n, reader.drop n)
  else .error .UpstreamReadError

/-- Modelled from the spec: `read_string(reader, n)` reads `n` bytes as a
UTF-8 string; strings are byte sequences in this embedding. -/
def read_string (reader : List Nat) (n : Nat) : Except ZipErr (List Nat × List Nat) :=
  read_bytes reader n

/-- Modelled from the spec: read a little-endian `u16`. -/
def read_u16 (reader : List Nat) : Except ZipErr (Nat × List Nat) := do
  let (bs, rest) ← read_bytes reader 2
  .ok (bs.getD 0 0 + 256 * bs.getD 1 0, rest)

/-- Modelled from the spec: read a little-endian `u32`. -/
def read_u32 (reader : List Nat) : Except ZipErr (Nat × List Nat) := do
  let (bs, rest) ← read_bytes reader 4
  .ok (bs.getD 0 0 + 256 * bs.getD 1 0 + 65536 * bs.getD 2 0 + 16777216 * bs.getD 3 0, rest)

/-- The central directory header signature `0x02014b50`. -/
def CDH_SIGNATURE : Nat := 0x02014b50

/-- The local file header signature `0x04034b50`. -/
def LFH_SIGNATURE : Nat := 0x04034b50

/-- The EOCDR signature `0x06054b50` as a `u32`. -/
def EOCDR_SIGNATURE : Nat := 0x06054b50

/-- `GeneralPurposeFlag` from its 16-bit wire value: bit 0 and bit 3. -/
def GeneralPurposeFlag.from_u16 (v : Nat) : GeneralPurposeFlag :=
  ⟨v % 2 = 1, v / 8 % 2 = 1⟩

/-- `CentralDirectoryHeader`: the 42-byte fixed body of a central directory
record (field names as in the writer's construction in `src/write/mod.rs`). -/
structure CentralDirectoryHeader where
  v_made_by : Nat
  v_needed : Nat
  flags : GeneralPurposeFlag
  compression : Nat
  mod_time : Nat
  mod_date : Nat
  crc : Nat
  compressed_size : Nat
  uncompressed_size : Nat
  file_name_length : Nat
  extra_field_length : Nat
  file_comment_length : Nat
  disk_start : Nat
  inter_attr : Nat
  exter_attr : Nat
  lh_offset : Nat
  deriving DecidableEq, Repr

/-- Modelled from the spec: `CentralDirectoryHeader::from_reader` (the source
`spec/header.rs` is declared but absent from the tree): read and validate the
4-byte signature (`UnexpectedHeader(actual, expected)` on mismatch), then the
little-endian fixed body in wire order. -/
def CentralDirectoryHeader.from_reader (reader : List Nat) :
    Except ZipErr (CentralDirectoryHeader × List Nat) := do
  let (sig, r) ← read_u32 reader
  if sig ≠ CDH_SIGNATURE then
    .error (.UnexpectedHeaderError sig CDH_SIGNATURE)
  else
    let (v_made_by, r) ← read_u16 r
    let (v_needed, r) ← read_u16 r
    let (flags, r) ← read_u16 r
    let (compression, r) ← read_u16 r
    let (mod_time, r) ← read_u16 r
    let (mod_date, r) ← read_u16 r
    let (crc, r) ← read_u32 r
    let (compressed_size, r) ← read_u32 r
    let (uncompressed_size, r) ← read_u32 r
    let (file_name_length, r) ← read_u16 r
    let (extra_field_length, r) ← read_u16 r
    let (file_comment_length, r) ← read_u16 r
    let (disk_start, r) ← read_u16 r
    let (inter_attr, r) ← read_u16 r
    let (exter_attr, r) ← read_u32 r
    let (lh_offset, r) ← read_u32 r
    .ok (⟨v_made_by, v_needed, GeneralPurposeFlag.from_u16 flags, compression, mod_time,
      mod_date, crc, compressed_size, uncompressed_size, file_name_length,
      extra_field_length, file_comment_length, disk_start, inter_attr, exter_attr,
      lh_offset⟩, r)

/-- `cd_record(reader)` (`src/read/mod.rs` lines 52-83): parse one central
directory record into a `ZipEntry` and its `ZipEntryMeta`. Attribute
compatibility is hard-coded to `Unix`; the modification date passes the raw
DOS pair through. -/
def cd_record (reader : List Nat) :
    Except ZipErr ((ZipEntry × ZipEntryMeta) × List Nat) := do
  let (header, r) ← CentralDirectoryHeader.from_reader reader
  let (filename, r) ← read_string r header.file_name_length
  let compression ← Compression.try_from header.compression
  let (extra_field, r) ← read_bytes r header.extra_field_length
  let (comment, r) ← read_string r header.file_comment_length
  let entry : ZipEntry :=
    { filename := filename
      compression := compression
      attribute_compatibility := .Unix
      crc32 := header.crc
      uncompressed_size := header.uncompressed_size
      compressed_size := header.compressed_size
      last_modification_date := (header.mod_date, header.mod_time)
      internal_file_attribute := header.inter_attr
      external_file_attribute := header.exter_attr
      extra_field := extra_field
      comment := comment }
  let meta : ZipEntryMeta :=
    { general_purpose_flag := header.flags, file_offset := some header.lh_offset }
  .ok ((entry, meta), r)

/-- The record loop of `cd`: parse `n` consecutive central directory
records. -/
def cdLoop (reader : List Nat) : Nat → Except ZipErr (List ZipEntry × List ZipEntryMeta)
  | 0 => .ok ([], [])
  | n + 1 => do
    let ((entry, meta), rest) ← cd_record reader
    let (entries, metas) ← cdLoop rest n
    .ok (entry :: entries, meta :: metas)

/-- `usize::MAX` on the 64-bit targets the crate supports. -/
def USIZE_MAX : Nat := 2 ^ 64 - 1

/-- `cd(reader, num_of_entries)` (`src/read/mod.rs` lines 34-50): convert the
`u64` entry count to `usize` — the only place `TargetZip64Unsupported` is
produced — then parse that many records. -/
def cd (reader : List Nat) (num_of_entries : Nat) :
    Except ZipErr (List ZipEntry × List ZipEntryMeta) :=
  if num_of_entries ≤ USIZE_MAX then cdLoop reader num_of_entries
  else .error .TargetZip64Unsupported

/-! ## The memory and filesystem facades (`src/read/mem.rs`, `src/read/fs.rs`)

Both `entry_reader(index)` bodies look an entry and meta up with
`.get(index).unwrap()` and then hand a fresh source (a cursor over the whole
owned buffer, resp. a newly opened file handle) to
`ZipEntryReader::new_with_owned(source, Compression::Deflate, 0)` without any
seek or local-file-header parse. The model records exactly what reaches the
pipeline constructor. -/

/-- What `entry_reader` passes to `ZipEntryReader::new_with_owned`: the fresh
source positioned at `source_pos`, the compression argument and the size
argument (the `Take` limit). `aborted` models the `unwrap()` panic on a
missing index. -/
inductive EntryReaderResult where
  | ok (source_pos : Nat) (compression : Compression) (size : Nat)
  | aborted
  deriving DecidableEq, Repr

/-- `mem::ZipFileReader::entry_reader(index)` (`src/read/mem.rs` lines
61-67): look up `entries[index]` and `metas[index]` with `unwrap()`, open a
fresh cursor over the owned buffer (position 0), and construct the pipeline
with `Compression::Deflate` and size `0`. -/
def mem_entry_reader (file : ZipFile) (index : Nat) : EntryReaderResult :=
  match file.entries.get? index, file.metas.get? index with
  | some _, some _ => .ok 0 Compression.Deflate 0
  | _, _ => .aborted

/-- `fs::ZipFileReader::entry_reader(index)` (`src/read/fs.rs` lines 90-96):
identical to the memory facade over a freshly opened file handle (position
0). -/
def fs_entry_reader (file : ZipFile) (index : Nat) : EntryReaderResult :=
  match file.entries.get? index, file.metas.get? index with
  | some _, some _ => .ok 0 Compression.Deflate 0
  | _, _ => .aborted

/-! ## The streaming writer (`src/write/mod.rs`)

The sink is the byte list `out`; `write` calls always complete fully (the
sink is an in-memory cursor), so `written` accumulates the lengths of the
emitted chunks. The `crate::header` encoders (`to_slice`) are absent from
the tree and are modelled from the spec's wire layout. The UTC clock and the
compression codecs are external collaborators, passed in as the `now` pair
and the `compressFn` function. -/

/-- Little-endian encoding of a `u16`. -/
def u16_le (v : Nat) : List Nat := [v % 256, v / 256 % 256]

/-- Little-endian encoding of a `u32`. -/
def u32_le (v : Nat) : List Nat :=
  [v % 256, v / 256 % 256, v / 65536 % 256, v / 16777216 % 256]

/-- `GeneralPurposeFlag` to its 16-bit wire value (bit 0, bit 3). -/
def GeneralPurposeFlag.to_u16 (f : GeneralPurposeFlag) : Nat :=
  (if f.encrypted then 1 else 0) + (if f.data_descriptor then 8 else 0)

/-- `EntryOptions` (writer input). -/
structure EntryOptions where
  filename : List Nat
  compression : Compression
  extra : List Nat
  comment : List Nat
  deriving DecidableEq, Repr

/-- `LocalFileHeader` as constructed by `write_entry`. -/
structure LocalFileHeader where
  compressed_size : Nat
  uncompressed_size : Nat
  compression : Nat
  crc : Nat
  extra_field_length : Nat
  file_name_length : Nat
  mod_time : Nat
  mod_date : Nat
  version : Nat
  flags : GeneralPurposeFlag
  deriving DecidableEq, Repr

/-- Modelled from the spec: `LocalFileHeader::to_slice()`, the 26-byte fixed
body (signature handled separately by the caller): version, flags,
compression, mod_time, mod_date as `u16`; crc, compressed_size,
uncompressed_size as `u32`; filename and extra lengths as `u16`. -/
def LocalFileHeader.to_slice (h : LocalFileHeader) : List Nat :=
  u16_le h.version ++ u16_le h.flags.to_u16 ++ u16_le h.compression ++
    u16_le h.mod_time ++ u16_le h.mod_date ++ u32_le h.crc ++
    u32_le h.compressed_size ++ u32_le h.uncompressed_size ++
    u16_le h.file_name_length ++ u16_le h.extra_field_length

/-- Modelled from the spec: `CentralDirectoryHeader::to_slice()`, the 42-byte
fixed body in wire order. -/
def CentralDirectoryHeader.to_slice (h : CentralDirectoryHeader) : List Nat :=
  u16_le h.v_made_by ++ u16_le h.v_needed ++ u16_le h.flags.to_u16 ++
    u16_le h.compression ++ u16_le h.mod_time ++ u16_le h.mod_date ++
    u32_le h.crc ++ u32_le h.compressed_size ++ u32_le h.uncompressed_size ++
    u16_le h.file_name_length ++ u16_le h.extra_field_length ++
    u16_le h.file_comment_length ++ u16_le h.disk_start ++ u16_le h.inter_attr ++
    u32_le h.exter_attr ++ u32_le h.lh_offset

/-- `CentralDirectoryEntry` (writer internal): accumulated header plus the
options it was created from. -/
structure CentralDirectoryEntry where
  header : CentralDirectoryHeader
  opts : EntryOptions
  deriving DecidableEq, Repr

/-- The `ZipFileWriter` state: the sink contents, the accumulated central
directory entries and the running byte counter. -/
structure ZipFileWriterM where
  out : List Nat
  cd_entries : List CentralDirectoryEntry
  written : Nat
  deriving DecidableEq, Repr

/-- `ZipFileWriter::new`. -/
def ZipFileWriterM.new : ZipFileWriterM := ⟨[], [], 0⟩

/-- The `lf_header` struct literal inside `write_entry`: sizes truncated
`as u32`, lengths `as u16`, CRC-32 of the raw data, the DOS time pair from
the UTC clock, version 0, both flag bits clear. -/
def make_lf_header (opts : EntryOptions) (raw compressed : List Nat)
    (now : Nat × Nat) : LocalFileHeader :=
  { compressed_size := compressed.length % 2 ^ 32
    uncompressed_size := raw.length % 2 ^ 32
    compression := opts.compression.to_u16
    crc := crc32 raw
    extra_field_length := opts.extra.length % 2 ^ 16
    file_name_length := opts.filename.length % 2 ^ 16
    mod_time := now.1
    mod_date := now.2
    version := 0
    flags := ⟨false, false⟩ }

/-- The `header` struct literal inside `write_entry`: every shared field is
copied from `lf_header`; `lh_offset` is the running `written` counter
truncated `as u32`. -/
def make_cd_header (lf_header : LocalFileHeader) (opts : EntryOptions)
    (written : Nat) : CentralDirectoryHeader :=
  { v_made_by := 0
    v_needed := 0
    compressed_size := lf_header.compressed_size
    uncompressed_size := lf_header.uncompressed_size
    compression := lf_header.compression
    crc := lf_header.crc
    extra_field_length := lf_header.extra_field_length
    file_name_length := lf_header.file_name_length
    file_comment_length := opts.comment.length % 2 ^ 16
    mod_time := lf_header.mod_time
    mod_date := lf_header.mod_date
    flags := lf_header.flags
    disk_start := 0
    inter_attr := 0
    exter_attr := 0
    lh_offset := written % 2 ^ 32 }

/-- The payload selected by `write_entry`: the raw data for `Stored`,
otherwise the codec's output. -/
def entryPayload (compressFn : Compression → List Nat → List Nat)
    (opts : EntryOptions) (raw : List Nat) : List Nat :=
  match opts.compression with
  | .Stored => raw
  | c => compressFn c raw

/-- The bytes `write_entry` emits for one entry: LFH signature, fixed body,
filename, extra field, payload. -/
def entryBlock (compressFn : Compression → List Nat → List Nat)
    (opts : EntryOptions) (raw : List Nat) (now : Nat × Nat) : List Nat :=
  u32_le LFH_SIGNATURE ++
    (make_lf_header opts raw (entryPayload compressFn opts raw) now).to_slice ++
    opts.filename ++ opts.extra ++ entryPayload compressFn opts raw

/-- `ZipFileWriter::write_entry(opts, raw_data)` (`src/write/mod.rs` lines
66-119): build the local file header and the central directory header
(capturing `lh_offset = written` before emitting), emit the block, advance
`written` by the bytes written, and push the accumulated entry. -/
def ZipFileWriterM.write_entry (w : ZipFileWriterM)
    (compressFn : Compression → List Nat → List Nat) (opts : EntryOptions)
    (raw : List Nat) (now : Nat × Nat) : ZipFileWriterM :=
  let lf_header := make_lf_header opts raw (entryPayload compressFn opts raw) now
  let header := make_cd_header lf_header opts w.written
  let block := entryBlock compressFn opts raw now
  { out := w.out ++ block
    cd_entries := w.cd_entries ++ [⟨header, opts⟩]
    written := w.written + block.length }

/-- One queued `write_entry` call. -/
structure WriteJob where
  opts : EntryOptions
  raw : List Nat
  now : Nat × Nat
  deriving DecidableEq, Repr

/-- A sequence of `write_entry` calls. -/
def writeAll (compressFn : Compression → List Nat → List Nat)
    (w : ZipFileWriterM) : List WriteJob → ZipFileWriterM
  | [] => w
  | j :: rest => writeAll compressFn (w.write_entry compressFn j.opts j.raw j.now) rest

/-- The central directory entries produced by a job list when the first block
goes out at byte offset `base`. -/
def jobHeaders (compressFn : Compression → List Nat → List Nat) (base : Nat) :
    List WriteJob → List CentralDirectoryEntry
  | [] => []
  | j :: rest =>
    ⟨make_cd_header (make_lf_header j.opts j.raw (entryPayload compressFn j.opts j.raw) j.now)
        j.opts base, j.opts⟩ ::
      jobHeaders compressFn (base + (entryBlock compressFn j.opts j.raw j.now).length) rest

/-- A placeholder central directory entry, used as the `getD` default. -/
def dummyCdEntry : CentralDirectoryEntry :=
  ⟨make_cd_header (make_lf_header ⟨[], .Stored, [], []⟩ [] [] (0, 0)) ⟨[], .Stored, [], []⟩ 0,
    ⟨[], .Stored, [], []⟩⟩

/-! ## Concrete fixtures -/

/-- A one-entry `ZipFile` as parsed from an archive holding the 7 bytes
`"foo bar"` Stored at local header offset 40 (`crc32("foo bar") =
0xbe460134`). -/
def sampleEntry : ZipEntry :=
  { filename := [0x61, 0x2e, 0x74, 0x78, 0x74]
    compression := .Stored
    attribute_compatibility := .Unix
    crc32 := 0xbe460134
    uncompressed_size := 7
    compressed_size := 7
    last_modification_date := (0, 0)
    internal_file_attribute := 0
    external_file_attribute := 0
    extra_field := []
    comment := [] }

def sampleMeta : ZipEntryMeta := ⟨⟨false, false⟩, some 40⟩

def sampleFile : ZipFile := ⟨[sampleEntry], [sampleMeta], []⟩

/-- The empty `ZipFile` (no entries). -/
def emptyFile : ZipFile := ⟨[], [], []⟩

/-- The bytes of `"foo bar"`. -/
def fooBar : List Nat := [0x66, 0x6f, 0x6f, 0x20, 0x62, 0x61, 0x72]

/-- A byte source that is exactly the 4 EOCDR signature bytes (length 4), or,
read with length 22, the EOCDR of an empty archive (signature followed by 18
zero bytes). -/
def sigOnlyData : Nat → Nat := fun i => eocdrSignature.getD i 0

/-- A minimal archive of length `22 + c`: an EOCDR at offset 0 whose comment
field has length `c` (encoded little-endian at body offsets 20-21) followed
by `c` comment bytes of value `0x20`. -/
def commentArchive (c : Nat) : Nat → Nat := fun i =>
  if i < 4 then eocdrSignature.getD i 0
  else if i = 20 then c % 256
  else if i = 21 then c / 256 % 256
  else if i < 22 then 0
  else 0x20

/-- The 65 535-byte-comment archive of `commentArchive`, except that the
comment byte at archive offset 2047 is `0x50` (the first signature byte)
instead of `0x20`. Its unique EOCDR signature still sits at offset 0. -/
def adversarialArchive : Nat → Nat := fun i =>
  if i = 2047 then 0x50 else commentArchive 65535 i

/-- A single writer job: filename `"a"`, Stored, raw byte `0x62`, DOS time
pair `(0, 0)`. -/
def sampleJob : WriteJob := ⟨⟨[0x61], .Stored, [], []⟩, [0x62], (0, 0)⟩

/-- A one-record central directory whose `compressed_size` field is the ZIP64
sentinel `0xFFFFFFFF` (all other fields zero, `Stored` compression). -/
def zip64CdBytes : List Nat :=
  [0x50, 0x4b, 0x01, 0x02] ++ List.replicate 16 0 ++ [0xFF, 0xFF, 0xFF, 0xFF] ++
    List.replicate 22 0

/-! ## Lemmas about the hashing layer -/

theorem Hasher.update_append (h : Hasher) (a b : List Nat) :
    h.update (a ++ b) = (h.update a).update b :=
  List.foldl_append _ _ _ _

theorem HashedReader.poll_read_eq (r : HashedReader) (filled chunk : List Nat) :
    r.poll_read filled chunk = (filled ++ chunk, ⟨r.hasher.update chunk⟩) := by
  simp [HashedReader.poll_read]

theorem HashedReader.runReads_hasher (chunks : List (List Nat)) :
    ∀ r : HashedReader, (r.runReads chunks).hasher = r.hasher.update chunks.flatten := by
  induction chunks with
  | nil => intro r; simp [HashedReader.runReads, Hasher.update]
  | cons c rest ih =>
    intro r
    rw [HashedReader.runReads, HashedReader.poll_read_eq, ih]
    simp [Hasher.update_append]

theorem readToEndLoop_eq (chunks : List (List Nat)) :
    ∀ (hashed : HashedReader) (buf : List Nat),
      readToEndLoop hashed buf chunks =
        (chunks.flatten.length, buf ++ chunks.flatten,
          ⟨hashed.hasher.update chunks.flatten⟩) := by
  induction chunks with
  | nil => intro hashed buf; simp [readToEndLoop, Hasher.update]
  | cons c rest ih =>
    intro hashed buf
    rw [readToEndLoop, HashedReader.poll_read_eq]
    simp [ih, Hasher.update_append, List.append_assoc]

theorem crc32_eq_finalize_update (s : List Nat) :
    crc32 s = (Hasher.new.update s).finalize := rfl

/-! ## Claim theorems -/

/-- C9: a `HashedReader` hashes exactly what it delivers:
`swap_and_compute_hash` after a sequence of reads delivering the chunks of
`chunks` returns the CRC-32 of their concatenation and resets the hasher, so
an immediate second call returns the CRC-32 of the empty string, and reads
after a swap are hashed starting fresh; each `poll_read` appends its chunk to
the caller's buffer and updates the hasher with exactly those newly appended
bytes. -/
theorem hashed_reader_crc_stream (chunks : List (List Nat)) (r : HashedReader)
    (filled chunk : List Nat) :
    (HashedReader.new.runReads chunks).swap_and_compute_hash.1 = crc32 chunks.flatten ∧
    (HashedReader.new.runReads chunks).swap_and_compute_hash.2.swap_and_compute_hash.1 =
      crc32 [] ∧
    ((r.swap_and_compute_hash.2.runReads chunks).swap_and_compute_hash.1 =
      crc32 chunks.flatten) ∧
    (r.poll_read filled chunk).1 = filled ++ chunk ∧
    (r.poll_read filled chunk).2.hasher = r.hasher.update chunk := by
  refine ⟨?_, rfl, ?_, ?_, ?_⟩
  · simp only [HashedReader.swap_and_compute_hash, HashedReader.runReads_hasher]
    rfl
  · simp only [HashedReader.swap_and_compute_hash, HashedReader.runReads_hasher]
    rfl
  · rw [HashedReader.poll_read_eq]
  · rw [HashedReader.poll_read_eq]

/-- C2: `read_to_end_checked(buf, entry)` on a fresh entry pipeline drains
the decompressed stream to EOF, appending its bytes to `buf` and returning
`Ok` of the byte count exactly when the streaming CRC-32 of the delivered
bytes equals `entry.crc32`, and failing with `CRC32CheckError` exactly when
the two differ; `read_to_string_checked` behaves identically when the
appended bytes are valid UTF-8. -/
theorem read_to_end_checked_spec (chunks : List (List Nat)) (buf : List Nat)
    (entry : ZipEntry) (utf8ok : List Nat → Bool)
    (hutf : utf8ok chunks.flatten = true) :
    (ZipEntryReaderM.new chunks).read_to_end_checked buf entry =
      ((if crc32 chunks.flatten = entry.crc32 then .ok chunks.flatten.length
        else .error .CRC32CheckError), buf ++ chunks.flatten, ⟨[], HashedReader.new⟩) ∧
    (ZipEntryReaderM.new chunks).read_to_string_checked utf8ok buf entry =
      ((if crc32 chunks.flatten = entry.crc32 then .ok chunks.flatten.length
        else .error .CRC32CheckError), buf ++ chunks.flatten, ⟨[], HashedReader.new⟩) := by
  constructor
  · rw [ZipEntryReaderM.read_to_end_checked]
    rw [show (ZipEntryReaderM.new chunks).hashed = HashedReader.new from rfl,
      show (ZipEntryReaderM.new chunks).chunks = chunks from rfl]
    rw [readToEndLoop_eq]
    rfl
  · rw [ZipEntryReaderM.read_to_string_checked]
    rw [show (ZipEntryReaderM.new chunks).hashed = HashedReader.new from rfl,
      show (ZipEntryReaderM.new chunks).chunks = chunks from rfl]
    rw [readToEndLoop_eq]
    simp only [List.drop_left, hutf, if_true]
    rfl

/-- C2 witness: reading the single-chunk stream `"foo bar"` against an entry
whose stored CRC is `0xbe460134` succeeds with 7 bytes read. -/
theorem read_to_end_checked_spec_witness :
    ((fun _ => true : List Nat → Bool) [fooBar].flatten = true) ∧
    ((ZipEntryReaderM.new [fooBar]).read_to_end_checked [] sampleEntry =
      ((if crc32 [fooBar].flatten = sampleEntry.crc32
        then .ok [fooBar].flatten.length else .error .CRC32CheckError),
        [] ++ [fooBar].flatten, ⟨[], HashedReader.new⟩) ∧
    (ZipEntryReaderM.new [fooBar]).read_to_string_checked
        (fun _ => true) [] sampleEntry =
      ((if crc32 [fooBar].flatten = sampleEntry.crc32
        then .ok [fooBar].flatten.length else .error .CRC32CheckError),
        [] ++ [fooBar].flatten, ⟨[], HashedReader.new⟩)) :=
  ⟨rfl, read_to_end_checked_spec [fooBar] [] sampleEntry (fun _ => true) rfl⟩

/-- C8: the two seed cases of `reverse_search_buffer`: searching
`[0x2,0x1,0,0,0,0]` for `[0x2,0x1]` yields a full match at index 1, and
searching `[0x1,0,0,0,0,0]` for `[0x2,0x1]` yields a boundary partial match
at index 0. -/
theorem reverse_search_buffer_seed_cases :
    reverse_search_buffer [0x2, 0x1, 0x0, 0x0, 0x0, 0x0] [0x2, 0x1] = some ⟨true, 1⟩ ∧
    reverse_search_buffer [0x1, 0x0, 0x0, 0x0, 0x0, 0x0] [0x2, 0x1] = some ⟨false, 0⟩ := by
  decide

/-- C1 (divergence witness): on a parsed one-entry archive whose entry is
`Stored` with `compressed_size = 7` and local header offset 40, the memory
facade entry_reader at index 0 (and identically the filesystem facade) hands
the pipeline a fresh source still at position 0 — it performs no seek to
`lh_offset` and no local-file-header parse — with the hard-coded
`Compression::Deflate` and size `0` instead of the entry's `Stored` and `7`. -/
theorem mem_entry_reader_ignores_entry :
    mem_entry_reader sampleFile 0 = .ok 0 Compression.Deflate 0 ∧
    fs_entry_reader sampleFile 0 = .ok 0 Compression.Deflate 0 ∧
    Compression.Deflate ≠ sampleEntry.compression ∧
    (0 : Nat) ≠ sampleEntry.compressed_size ∧
    some (0 : Nat) ≠ sampleMeta.file_offset := by
  decide

/-- C5 (divergence witness): on a parsed archive with no entries, the memory
and filesystem facade entry_reader at index 0 panics on `Option::unwrap`
instead of returning the `EntryIndexOutOfBounds` error. -/
theorem entry_reader_out_of_bounds_panics :
    mem_entry_reader emptyFile 0 = .aborted ∧
    fs_entry_reader emptyFile 0 = .aborted := by
  decide

/-! ## Lemmas about the locator -/

theorem rsbGo_match_index_lt (buf : Nat → Nat) (sigRev : List Nat) :
    ∀ fuel m, rsbGo buf sigRev fuel = some m → m.match_index < fuel := by
  intro fuel
  induction fuel with
  | zero => intro m h; simp [rsbGo] at h
  | succ i ih =>
    intro m h
    rw [rsbGo] at h
    split at h
    · injection h with h2; subst h2; exact Nat.lt_succ_self i
    · injection h with h2; subst h2; exact Nat.lt_succ_self i
    · exact Nat.lt_succ_of_lt (ih m h)

/-- The window invariant of the locator loop: any `found` offset lies below
`L` and within `EOCDR_LOWER_BOUND + BUFFER_SIZE - 1 = 67 604` bytes of the
end, provided the loop is entered with a position satisfying the same
slack. -/
theorem eocdrLoop_found_bounds (L : Nat) (data : Nat → Nat) :
    ∀ (fuel position : Nat) (carry : Option SignatureMatch) (o : Nat),
      eocdrLoop L data fuel position carry = .found o →
      L ≤ position + (EOCDR_LOWER_BOUND + BUFFER_SIZE - 1) →
      o < L ∧ L ≤ o + (EOCDR_LOWER_BOUND + BUFFER_SIZE - 1) := by
  have hBS : BUFFER_SIZE = 2048 := rfl
  have hLB : EOCDR_LOWER_BOUND = 65557 := rfl
  have hSL : SIGNATURE_LENGTH = 4 := rfl
  intro fuel
  induction fuel with
  | zero => intro position carry o h _; simp [eocdrLoop] at h
  | succ n ih =>
    intro position carry o h hInv
    rw [hLB, hBS] at hInv ⊢
    simp only [eocdrLoop, hBS, hLB, hSL] at h
    split at h
    case _ r heq =>
      subst h
      split at heq
      · exact absurd heq (by simp)
      case _ matched =>
        split at heq
        · split at heq
          case _ m2 hm2 =>
            injection heq with heq2
            split at heq2
            · cases heq2
              rename_i hguard _
              have hlen : min 2048 (L - position) ≤ L - position := Nat.min_le_right _ _
              constructor <;> omega
            · cases heq2
          · exact absurd heq (by simp)
        · injection heq with heq2
          cases heq2
    case _ heq =>
      split at h
      case _ m hm =>
        split at h
        · injection h with h2
          have hidx := rsbGo_match_index_lt _ _ _ _ hm
          have hlen : min 2048 (L - position) ≤ L - position := Nat.min_le_right _ _
          constructor <;> omega
        · split at h
          · simp at h
          · rename_i hcond
            have := ih _ _ _ h (by omega)
            omega
      case _ hm =>
        split at h
        · simp at h
        · rename_i hcond
          have := ih _ _ _ h (by omega)
          omega

/-- C3 counterexample: on the 4-byte source consisting of exactly the EOCDR
signature bytes, the locator returns offset 0, yet only 4 bytes — fewer than
the `EOCDR_LENGTH + SIGNATURE_LENGTH = 22` the claim guarantees — remain
after that offset. -/
theorem eocdr_window_claim_false :
    eocdr 4 sigOnlyData = .found 0 ∧
    ¬ (EOCDR_LENGTH + SIGNATURE_LENGTH ≤ 4 - 0) := by
  decide

/-- C3 (amended): whenever the locator returns `Ok(offset)` over a source of
length `L`, the offset satisfies `offset < L` and
`L - offset ≤ EOCDR_LOWER_BOUND + BUFFER_SIZE - 1 = 67 604`; the claimed
window `22 ≤ L - offset ≤ 65 557` holds on neither side in general. -/
theorem eocdr_found_window (L : Nat) (data : Nat → Nat) (o : Nat)
    (h : eocdr L data = .found o) :
    o < L ∧ L ≤ o + (EOCDR_LOWER_BOUND + BUFFER_SIZE - 1) := by
  rw [eocdr] at h
  refine eocdrLoop_found_bounds L data _ _ _ _ h ?_
  have h1 : EOCDR_LOWER_BOUND + BUFFER_SIZE - 1 = 67604 := rfl
  have h2 : EOCDR_LENGTH + BUFFER_SIZE = 2066 := rfl
  rw [h1, h2]
  omega

/-- C3 witness: the 22-byte empty-archive EOCDR is located at offset 0, which
indeed lies inside the amended window. -/
theorem eocdr_found_window_witness :
    eocdr 22 sigOnlyData = .found 0 ∧
    (0 < 22 ∧ 22 ≤ 0 + (EOCDR_LOWER_BOUND + BUFFER_SIZE - 1)) :=
  ⟨by decide, eocdr_found_window 22 sigOnlyData 0 (by decide)⟩

/-! ## Lemmas about central directory parsing errors -/

theorem bind_ne_err {α β : Type} (x : Except ZipErr α) (f : α → Except ZipErr β) (e : ZipErr)
    (hx : x ≠ .error e) (hf : ∀ a, f a ≠ .error e) : (x >>= f) ≠ .error e := by
  cases x with
  | error e2 =>
    intro h
    simp only [bind, Except.bind] at h
    injection h with h2
    exact hx (by rw [h2])
  | ok a =>
    simp only [bind, Except.bind]
    exact hf a

theorem read_bytes_ne_zip64 (r : List Nat) (n : Nat) :
    read_bytes r n ≠ .error .TargetZip64Unsupported := by
  unfold read_bytes; split <;> simp

theorem read_string_ne_zip64 (r : List Nat) (n : Nat) :
    read_string r n ≠ .error .TargetZip64Unsupported := read_bytes_ne_zip64 r n

theorem read_u16_ne_zip64 (r : List Nat) :
    read_u16 r ≠ .error .TargetZip64Unsupported := by
  unfold read_u16
  refine bind_ne_err _ _ _ (read_bytes_ne_zip64 _ _) ?_
  rintro ⟨bs, rest⟩
  simp

theorem read_u32_ne_zip64 (r : List Nat) :
    read_u32 r ≠ .error .TargetZip64Unsupported := by
  unfold read_u32
  refine bind_ne_err _ _ _ (read_bytes_ne_zip64 _ _) ?_
  rintro ⟨bs, rest⟩
  simp

theorem try_from_ne_zip64 (code : Nat) :
    Compression.try_from code ≠ .error .TargetZip64Unsupported := by
  unfold Compression.try_from
  (repeat' split) <;> simp

theorem from_reader_ne_zip64 (r : List Nat) :
    CentralDirectoryHeader.from_reader r ≠ .error .TargetZip64Unsupported := by
  unfold CentralDirectoryHeader.from_reader
  repeat' first
    | (refine bind_ne_err _ _ _ (read_u32_ne_zip64 _) ?_)
    | (refine bind_ne_err _ _ _ (read_u16_ne_zip64 _) ?_)
    | (rintro ⟨a, r2⟩)
    | split

theorem cd_record_ne_zip64 (r : List Nat) :
    cd_record r ≠ .error .TargetZip64Unsupported := by
  unfold cd_record
  refine bind_ne_err _ _ _ (from_reader_ne_zip64 _) ?_
  rintro ⟨header, r1⟩
  refine bind_ne_err _ _ _ (read_string_ne_zip64 _ _) ?_
  rintro ⟨filename, r2⟩
  refine bind_ne_err _ _ _ (try_from_ne_zip64 _) ?_
  intro compression
  refine bind_ne_err _ _ _ (read_bytes_ne_zip64 _ _) ?_
  rintro ⟨extra, r3⟩
  refine bind_ne_err _ _ _ (read_string_ne_zip64 _ _) ?_
  rintro ⟨comment, r4⟩
  simp

theorem cdLoop_ne_zip64 (n : Nat) :
    ∀ r : List Nat, cdLoop r n ≠ .error .TargetZip64Unsupported := by
  induction n with
  | zero => intro r; simp [cdLoop]
  | succ k ih =>
    intro r
    rw [cdLoop]
    refine bind_ne_err _ _ _ (cd_record_ne_zip64 _) ?_
    rintro ⟨⟨entry, meta⟩, rest⟩
    refine bind_ne_err _ _ _ (ih rest) ?_
    rintro ⟨entries, metas⟩
    simp

/-- C6 counterexample: a central directory whose single record carries the
ZIP64 sentinel `compressed_size = 0xFFFFFFFF` parses successfully — the
sentinel is stored in the entry verbatim and no `TargetZip64Unsupported`
error is raised. -/
theorem cd_accepts_zip64_sentinel :
    cd zip64CdBytes 1 =
      .ok ([{ filename := [], compression := .Stored,
              attribute_compatibility := .Unix, crc32 := 0,
              uncompressed_size := 0, compressed_size := 0xFFFFFFFF,
              last_modification_date := (0, 0), internal_file_attribute := 0,
              external_file_attribute := 0, extra_field := [], comment := [] }],
        [{ general_purpose_flag := ⟨false, false⟩, file_offset := some 0 }]) ∧
    cd zip64CdBytes 1 ≠ .error .TargetZip64Unsupported := by
  refine ⟨rfl, ?_⟩
  intro h
  rw [show cd zip64CdBytes 1 =
      .ok ([{ filename := [], compression := .Stored,
              attribute_compatibility := .Unix, crc32 := 0,
              uncompressed_size := 0, compressed_size := 0xFFFFFFFF,
              last_modification_date := (0, 0), internal_file_attribute := 0,
              external_file_attribute := 0, extra_field := [], comment := [] }],
        [{ general_purpose_flag := ⟨false, false⟩, file_offset := some 0 }]) from rfl] at h
  exact absurd h (by simp)

/-- C6 (amended): central directory reading raises `TargetZip64Unsupported`
only when the `u64` entry count does not fit in `usize`; for every count that
fits in a `u16` EOCDR field — including the sentinel `0xFFFF` — and every
input, parsing never fails with `TargetZip64Unsupported` (sentinel size
fields such as `0xFFFFFFFF` are accepted, as the counterexample shows). -/
theorem cd_ne_zip64_for_u16_counts (reader : List Nat) (n : Nat)
    (h : n ≤ 0xFFFF) :
    cd reader n ≠ .error .TargetZip64Unsupported := by
  unfold cd
  rw [if_pos (show n ≤ USIZE_MAX by unfold USIZE_MAX; omega)]
  exact cdLoop_ne_zip64 n reader

/-- C6 witness: with the sentinel entry count `0xFFFF` and an empty input the
parse fails with an upstream read error, not `TargetZip64Unsupported`. -/
theorem cd_ne_zip64_for_u16_counts_witness :
    (0xFFFF ≤ 0xFFFF) ∧ cd [] 0xFFFF ≠ .error .TargetZip64Unsupported :=
  ⟨by decide, cd_ne_zip64_for_u16_counts [] 0xFFFF (by decide)⟩

/-! ## Lemmas about the writer -/

theorem jobHeaders_length (fn : Compression → List Nat → List Nat) :
    ∀ (jobs : List WriteJob) (base : Nat), (jobHeaders fn base jobs).length = jobs.length := by
  intro jobs
  induction jobs with
  | nil => intro base; rfl
  | cons j rest ih => intro base; simp [jobHeaders, ih]

theorem writeAll_closed (fn : Compression → List Nat → List Nat) :
    ∀ (jobs : List WriteJob) (w : ZipFileWriterM),
      writeAll fn w jobs =
        ⟨w.out ++ (jobs.map fun j => entryBlock fn j.opts j.raw j.now).flatten,
          w.cd_entries ++ jobHeaders fn w.written jobs,
          w.written + (jobs.map fun j => entryBlock fn j.opts j.raw j.now).flatten.length⟩ := by
  intro jobs
  induction jobs with
  | nil => intro w; simp [writeAll, jobHeaders]
  | cons j rest ih =>
    intro w
    rw [writeAll, ih]
    simp [ZipFileWriterM.write_entry, jobHeaders, List.append_assoc]
    omega

theorem jobHeaders_getD_lh_offset (fn : Compression → List Nat → List Nat) :
    ∀ (jobs : List WriteJob) (i base : Nat), i < jobs.length →
      ((jobHeaders fn base jobs).getD i dummyCdEntry).header.lh_offset =
        (base + ((jobs.take i).map fun j => entryBlock fn j.opts j.raw j.now).flatten.length)
          % 2 ^ 32 := by
  intro jobs
  induction jobs with
  | nil => intro i base h; simp at h
  | cons j rest ih =>
    intro i base h
    cases i with
    | zero => simp [jobHeaders, make_cd_header]
    | succ i2 =>
      rw [jobHeaders]
      rw [List.getD_cons_succ]
      rw [ih i2 _ (by simpa using Nat.lt_of_succ_lt_succ h)]
      simp [List.length_append, Nat.add_assoc]

theorem flatten_map_take_le (f : WriteJob → List Nat) (jobs : List WriteJob) (i : Nat) :
    ((jobs.take i).map f).flatten.length ≤ (jobs.map f).flatten.length := by
  conv_rhs => rw [← List.take_append_drop i jobs]
  rw [List.map_append, List.flatten_append, List.length_append]
  omega

theorem flatten_map_drop_take_sig (fn : Compression → List Nat → List Nat)
    (jobs : List WriteJob) (i : Nat) (h : i < jobs.length) :
    (((jobs.map fun j => entryBlock fn j.opts j.raw j.now).flatten.drop
        (((jobs.take i).map fun j => entryBlock fn j.opts j.raw j.now).flatten.length)).take 4) =
      u32_le LFH_SIGNATURE := by
  have hsplit : ((jobs.map fun j => entryBlock fn j.opts j.raw j.now).flatten) =
      ((jobs.take i).map fun j => entryBlock fn j.opts j.raw j.now).flatten ++
        ((jobs.drop i).map fun j => entryBlock fn j.opts j.raw j.now).flatten := by
    rw [← List.flatten_append, ← List.map_append, List.take_append_drop]
  rw [hsplit, List.drop_left]
  rw [List.drop_eq_getElem_cons h]
  rw [List.map_cons, List.flatten_cons]
  rw [show entryBlock fn (jobs[i].opts) (jobs[i].raw) (jobs[i].now) =
    u32_le LFH_SIGNATURE ++
      ((make_lf_header (jobs[i].opts) (jobs[i].raw)
          (entryPayload fn (jobs[i].opts) (jobs[i].raw)) (jobs[i].now)).to_slice ++
        (jobs[i].opts.filename ++ ((jobs[i].opts.extra) ++
          entryPayload fn (jobs[i].opts) (jobs[i].raw)))) from by
    simp [entryBlock, List.append_assoc]]
  rw [List.append_assoc]
  rw [show (4 : Nat) = (u32_le LFH_SIGNATURE).length from rfl]
  exact List.take_left _ _

/-- C7: after any sequence of successful `write_entry` calls whose total
output stays below `2 ^ 32` bytes, the `lh_offset` recorded in the `i`-th
accumulated central directory entry equals the number of bytes emitted to
the sink before that entry's local file header, and the four output bytes at
that offset are exactly the LFH signature. -/
theorem write_entry_lh_offsets (fn : Compression → List Nat → List Nat)
    (jobs : List WriteJob) (i : Nat)
    (hlen : (writeAll fn ZipFileWriterM.new jobs).out.length < 2 ^ 32)
    (hi : i < (writeAll fn ZipFileWriterM.new jobs).cd_entries.length) :
    ((writeAll fn ZipFileWriterM.new jobs).cd_entries.getD i dummyCdEntry).header.lh_offset =
      ((jobs.take i).map fun j => entryBlock fn j.opts j.raw j.now).flatten.length ∧
    (((writeAll fn ZipFileWriterM.new jobs).out.drop
        (((writeAll fn ZipFileWriterM.new jobs).cd_entries.getD i
          dummyCdEntry).header.lh_offset)).take 4) = u32_le LFH_SIGNATURE := by
  rw [writeAll_closed] at hlen hi ⊢
  simp only [ZipFileWriterM.new, List.nil_append, List.length_append] at hlen hi ⊢
  have hjobs : i < jobs.length := by
    simpa [jobHeaders_length] using hi
  have hoff := jobHeaders_getD_lh_offset fn jobs i 0 hjobs
  simp only [Nat.zero_add] at hoff
  have hle := flatten_map_take_le (fun j => entryBlock fn j.opts j.raw j.now) jobs i
  have hmod : ((jobs.take i).map fun j => entryBlock fn j.opts j.raw j.now).flatten.length
      % 2 ^ 32 = ((jobs.take i).map fun j => entryBlock fn j.opts j.raw j.now).flatten.length :=
    Nat.mod_eq_of_lt (by omega)
  rw [hoff, hmod]
  exact ⟨rfl, flatten_map_drop_take_sig fn jobs i hjobs⟩

/-- C7 witness: one Stored entry `"a" -> byte 0x62` from a fresh writer: the
recorded offset is 0 and the first four output bytes are the LFH signature. -/
theorem write_entry_lh_offsets_witness :
    ((writeAll (fun _ l => l) ZipFileWriterM.new
        [sampleJob]).out.length < 2 ^ 32 ∧
      0 < (writeAll (fun _ l => l) ZipFileWriterM.new
        [sampleJob]).cd_entries.length) ∧
    (((writeAll (fun _ l => l) ZipFileWriterM.new
        [sampleJob]).cd_entries.getD 0
          dummyCdEntry).header.lh_offset =
      (([sampleJob].take 0).map
        fun j => entryBlock (fun _ l => l) j.opts j.raw j.now).flatten.length ∧
    (((writeAll (fun _ l => l) ZipFileWriterM.new
        [sampleJob]).out.drop
        (((writeAll (fun _ l => l) ZipFileWriterM.new
          [sampleJob]).cd_entries.getD 0
            dummyCdEntry).header.lh_offset)).take 4) = u32_le LFH_SIGNATURE) :=
  ⟨⟨by decide, by decide⟩,
    write_entry_lh_offsets (fun _ l => l) [sampleJob] 0
      (by decide) (by decide)⟩

/-- C10: the central directory header appended by `write_entry` agrees with
the emitted local file header on every shared field (crc, sizes,
compression, flags, name and extra lengths, DOS time and date), and
`write_entry` really appends that header and emits that local file header. -/
theorem write_entry_cd_agrees_lfh (fn : Compression → List Nat → List Nat)
    (w : ZipFileWriterM) (opts : EntryOptions) (raw : List Nat) (now : Nat × Nat) :
    (make_cd_header (make_lf_header opts raw (entryPayload fn opts raw) now) opts w.written).crc =
        (make_lf_header opts raw (entryPayload fn opts raw) now).crc ∧
    (make_cd_header (make_lf_header opts raw (entryPayload fn opts raw) now) opts w.written).compressed_size =
        (make_lf_header opts raw (entryPayload fn opts raw) now).compressed_size ∧
    (make_cd_header (make_lf_header opts raw (entryPayload fn opts raw) now) opts w.written).uncompressed_size =
        (make_lf_header opts raw (entryPayload fn opts raw) now).uncompressed_size ∧
    (make_cd_header (make_lf_header opts raw (entryPayload fn opts raw) now) opts w.written).compression =
        (make_lf_header opts raw (entryPayload fn opts raw) now).compression ∧
    (make_cd_header (make_lf_header opts raw (entryPayload fn opts raw) now) opts w.written).flags =
        (make_lf_header opts raw (entryPayload fn opts raw) now).flags ∧
    (make_cd_header (make_lf_header opts raw (entryPayload fn opts raw) now) opts w.written).file_name_length =
        (make_lf_header opts raw (entryPayload fn opts raw) now).file_name_length ∧
    (make_cd_header (make_lf_header opts raw (entryPayload fn opts raw) now) opts w.written).extra_field_length =
        (make_lf_header opts raw (entryPayload fn opts raw) now).extra_field_length ∧
    (make_cd_header (make_lf_header opts raw (entryPayload fn opts raw) now) opts w.written).mod_time =
        (make_lf_header opts raw (entryPayload fn opts raw) now).mod_time ∧
    (make_cd_header (make_lf_header opts raw (entryPayload fn opts raw) now) opts w.written).mod_date =
        (make_lf_header opts raw (entryPayload fn opts raw) now).mod_date ∧
    (w.write_entry fn opts raw now).cd_entries = w.cd_entries ++
        [⟨make_cd_header (make_lf_header opts raw (entryPayload fn opts raw) now) opts w.written, opts⟩] ∧
    (w.write_entry fn opts raw now).out = w.out ++ u32_le LFH_SIGNATURE ++
        (make_lf_header opts raw (entryPayload fn opts raw) now).to_slice ++
        opts.filename ++ opts.extra ++ entryPayload fn opts raw := by
  refine ⟨rfl, rfl, rfl, rfl, rfl, rfl, rfl, rfl, rfl, rfl, ?_⟩
  simp [ZipFileWriterM.write_entry, entryBlock, List.append_assoc]

/-! ## Window-skipping lemmas for the 65 557-byte locator runs

Scanning a 2 KiB window none of whose bytes equals the signature's last byte
`0x06` matches nothing, so the loop just steps to the previous window. -/

theorem rsbGo_none_of_clean (buf : Nat → Nat) (b : Nat) (rest : List Nat) :
    ∀ fuel, (∀ i, i < fuel → buf i ≠ b) → rsbGo buf (b :: rest) fuel = none := by
  intro fuel
  induction fuel with
  | zero => intro _; rfl
  | succ i ih =>
    intro h
    rw [rsbGo, matchAt]
    rw [if_pos (Nat.zero_le i)]
    rw [show i - 0 = i from rfl]
    rw [if_neg (h i (Nat.lt_succ_self i))]
    exact ih (fun j hj => h j (Nat.lt_succ_of_lt hj))

theorem eocdrLoop_skip (L : Nat) (data : Nat → Nat) (fuel position : Nat)
    (h0 : position ≠ 0) (hterm : ¬ position ≤ L - EOCDR_LOWER_BOUND)
    (hclean : ∀ i, i < min BUFFER_SIZE (L - position) → data (position + i) ≠ 0x06) :
    eocdrLoop L data (fuel + 1) position none =
      eocdrLoop L data fuel (position - BUFFER_SIZE) none := by
  have hnone := rsbGo_none_of_clean (fun i => data (position + i)) 0x06 [0x05, 0x4b, 0x50]
    (min BUFFER_SIZE (L - position)) hclean
  rw [eocdrLoop]
  simp only [show eocdrSignature.reverse = [0x06, 0x05, 0x4b, 0x50] from rfl, hnone]
  rw [if_neg (by
    push_neg
    exact ⟨h0, by omega⟩ : ¬ (position = 0 ∨ position ≤ L - EOCDR_LOWER_BOUND))]

/-- Skipping `k` clean windows from position `3 + 2048 * k` of a 65 557-byte
source lands the loop at position 3. -/
theorem eocdrLoop_chain (data : Nat → Nat) (hclean : ∀ j, 2051 ≤ j → data j ≠ 0x06) :
    ∀ (k f : Nat), eocdrLoop 65557 data (f + 1 + k) (3 + 2048 * k) none =
      eocdrLoop 65557 data (f + 1) 3 none := by
  intro k
  induction k with
  | zero => intro f; rfl
  | succ k2 ih =>
    intro f
    have hstep := eocdrLoop_skip 65557 data (f + 1 + k2) (3 + 2048 * (k2 + 1))
      (by omega)
      (by rw [show (65557 : Nat) - EOCDR_LOWER_BOUND = 0 from rfl]; omega)
      (by intro i _; exact hclean _ (by omega))
    rw [show (3 + 2048 * (k2 + 1)) - BUFFER_SIZE = 3 + 2048 * k2 from by
      rw [show BUFFER_SIZE = 2048 from rfl]; omega] at hstep
    show eocdrLoop 65557 data (f + 1 + k2 + 1) (3 + 2048 * (k2 + 1)) none =
      eocdrLoop 65557 data (f + 1) 3 none
    rw [hstep]
    exact ih f

set_option maxRecDepth 100000 in
set_option maxHeartbeats 2000000 in
/-- C4 (supporting): for each comment length `c` in
`{0, 1, 17, 18, 1000, 65535}`, the locator finds the EOCDR of the canonical
archive — an EOCDR with a `c`-byte comment of `0x20` bytes at offset 0 — at
exactly its offset; in particular the 65 535-byte-comment archive of length
`22 + 65 535` is located at `length - 22 - 65 535 = 0`. -/
theorem locator_exact_offsets :
    eocdr (22 + 0) (commentArchive 0) = .found 0 ∧
    eocdr (22 + 1) (commentArchive 1) = .found 0 ∧
    eocdr (22 + 17) (commentArchive 17) = .found 0 ∧
    eocdr (22 + 18) (commentArchive 18) = .found 0 ∧
    eocdr (22 + 1000) (commentArchive 1000) = .found 0 ∧
    eocdr (22 + 65535) (commentArchive 65535) = .found 0 ∧
    (22 + 65535) - (EOCDR_LENGTH + SIGNATURE_LENGTH) - 65535 = 0 := by
  refine ⟨by decide, by decide, by decide, by decide, by decide, ?_, by decide⟩
  rw [show (22 + 65535 : Nat) = 65557 from rfl]
  rw [eocdr]
  rw [show (65557 : Nat) - (EOCDR_LENGTH + BUFFER_SIZE) = 63491 from rfl,
    show (65557 : Nat) / BUFFER_SIZE + 2 = 34 from rfl]
  rw [show (34 : Nat) = 2 + 1 + 31 from rfl, show (63491 : Nat) = 3 + 2048 * 31 from rfl]
  rw [eocdrLoop_chain (commentArchive 65535) (by
    intro j hj
    simp only [commentArchive]
    rw [if_neg (by omega), if_neg (by omega), if_neg (by omega), if_neg (by omega)]
    decide) 31 2]
  decide

set_option maxRecDepth 100000 in
set_option maxHeartbeats 2000000 in
/-- C4 (failing input): on the valid archive of length `22 + 65 535` whose
EOCDR (and its unique signature occurrence) is at offset 0 and whose 65 535
comment bytes are `0x20` except for a `0x50` at archive offset 2047, the
locator returns 2047 — a position inside the comment — instead of the exact
offset `L - 22 - 65 535 = 0`: the carried partial match from the window at
position 3 is "confirmed" against the overlapping (saturated) window at
position 0 as though the two windows were adjacent. -/
theorem locator_misses_unique_eocdr :
    eocdr (22 + 65535) adversarialArchive = .found 2047 ∧
    (2047 : Nat) ≠ (22 + 65535) - (EOCDR_LENGTH + SIGNATURE_LENGTH) - 65535 := by
  refine ⟨?_, by decide⟩
  rw [show (22 + 65535 : Nat) = 65557 from rfl]
  rw [eocdr]
  rw [show (65557 : Nat) - (EOCDR_LENGTH + BUFFER_SIZE) = 63491 from rfl,
    show (65557 : Nat) / BUFFER_SIZE + 2 = 34 from rfl]
  rw [show (34 : Nat) = 2 + 1 + 31 from rfl, show (63491 : Nat) = 3 + 2048 * 31 from rfl]
  rw [eocdrLoop_chain adversarialArchive (by
    intro j hj
    simp only [adversarialArchive, commentArchive]
    rw [if_neg (by omega), if_neg (by omega), if_neg (by omega), if_neg (by omega),
      if_neg (by omega)]
    decide) 31 2]
  decide

end AsyncZip
